import Mathlib

/-!
# Verification of the CCTV news crawler ingestion pipeline

A shallow embedding of `crawler.py` (class `CCTVNewsCrawler`): the identity
hasher (`get_content_hash`, MD5 over the UTF-8 bytes of title ++ brief), the
content-file path derivation (`get_content_file_path`, built on Python's
`datetime.strptime` with format `%Y-%m-%d %H:%M:%S`), the content-file write
(`save_detailed_content`), and the ingestion pipeline (`save_news_to_db`).

External effects (network fetches, filesystem I/O errors, the SQLite
connection raising, and the current date) are supplied by an explicit
environment of oracles; the filesystem and the metadata table are explicit
state threaded through the definitions.
-/

namespace Crawler

/-! ## UTF-8 encoding (Python str.encode with the utf-8 codec) -/

/-- UTF-8 encoding of one Unicode scalar value, as a list of byte values. -/
def utf8Char (n : Nat) : List Nat :=
  if n < 0x80 then [n]
  else if n < 0x800 then [0xC0 + n / 64, 0x80 + n % 64]
  else if n < 0x10000 then [0xE0 + n / 4096, 0x80 + n / 64 % 64, 0x80 + n % 64]
  else [0xF0 + n / 262144, 0x80 + n / 4096 % 64, 0x80 + n / 64 % 64, 0x80 + n % 64]

/-- UTF-8 encoding of a string, as a list of byte values. -/
def utf8Bytes (s : String) : List Nat :=
  s.data.flatMap (fun c => utf8Char c.toNat)

/-! ## MD5 (model of Python `hashlib.md5`, RFC 1321) -/

/-- The 64 MD5 round constants, `floor(2^32 * abs(sin(i+1)))`. -/
def md5K : List Nat :=
  [0xd76aa478, 0xe8c7b756, 0x242070db, 0xc1bdceee,
   0xf57c0faf, 0x4787c62a, 0xa8304613, 0xfd469501,
   0x698098d8, 0x8b44f7af, 0xffff5bb1, 0x895cd7be,
   0x6b901122, 0xfd987193, 0xa679438e, 0x49b40821,
   0xf61e2562, 0xc040b340, 0x265e5a51, 0xe9b6c7aa,
   0xd62f105d, 0x02441453, 0xd8a1e681, 0xe7d3fbc8,
   0x21e1cde6, 0xc33707d6, 0xf4d50d87, 0x455a14ed,
   0xa9e3e905, 0xfcefa3f8, 0x676f02d9, 0x8d2a4c8a,
   0xfffa3942, 0x8771f681, 0x6d9d6122, 0xfde5380c,
   0xa4beea44, 0x4bdecfa9, 0xf6bb4b60, 0xbebfbc70,
   0x289b7ec6, 0xeaa127fa, 0xd4ef3085, 0x04881d05,
   0xd9d4d039, 0xe6db99e5, 0x1fa27cf8, 0xc4ac5665,
   0xf4292244, 0x432aff97, 0xab9423a7, 0xfc93a039,
   0x655b59c3, 0x8f0ccc92, 0xffeff47d, 0x85845dd1,
   0x6fa87e4f, 0xfe2ce6e0, 0xa3014314, 0x4e0811a1,
   0xf7537e82, 0xbd3af235, 0x2ad7d2bb, 0xeb86d391]

/-- The MD5 per-round left-rotation amounts. -/
def md5S : List Nat :=
  [7, 12, 17, 22, 7, 12, 17, 22, 7, 12, 17, 22, 7, 12, 17, 22,
   5,  9, 14, 20, 5,  9, 14, 20, 5,  9, 14, 20, 5,  9, 14, 20,
   4, 11, 16, 23, 4, 11, 16, 23, 4, 11, 16, 23, 4, 11, 16, 23,
   6, 10, 15, 21, 6, 10, 15, 21, 6, 10, 15, 21, 6, 10, 15, 21]

/-- Bitwise complement on a 32-bit word represented as a `Nat`. -/
def w32not (x : Nat) : Nat := 0xFFFFFFFF ^^^ x % 2 ^ 32

/-- Left-rotate a 32-bit word by `r` bits. -/
def rotl32 (x r : Nat) : Nat :=
  ((x <<< r) % 2 ^ 32) ||| ((x % 2 ^ 32) >>> (32 - r))

/-- Little-endian 32-bit word `i` of a 64-byte chunk. -/
def leWord (chunk : List Nat) (i : Nat) : Nat :=
  chunk.getD (4 * i) 0 + 256 * chunk.getD (4 * i + 1) 0 +
    65536 * chunk.getD (4 * i + 2) 0 + 16777216 * chunk.getD (4 * i + 3) 0

/-- One MD5 round applied to the working state `(a, b, c, d)`. -/
def md5round (chunk : List Nat) (st : Nat × Nat × Nat × Nat) (i : Nat) :
    Nat × Nat × Nat × Nat :=
  let (a, b, c, d) := st
  let f :=
    if i < 16 then (b &&& c) ||| (w32not b &&& d)
    else if i < 32 then (d &&& b) ||| (w32not d &&& c)
    else if i < 48 then b ^^^ c ^^^ d
    else c ^^^ (b ||| w32not d)
  let g :=
    if i < 16 then i
    else if i < 32 then (5 * i + 1) % 16
    else if i < 48 then (3 * i + 5) % 16
    else (7 * i) % 16
  let tmp := (f + a + md5K.getD i 0 + leWord chunk g) % 2 ^ 32
  (d, (b + rotl32 tmp (md5S.getD i 0)) % 2 ^ 32, b, c)

/-- Process one 64-byte chunk, updating the four accumulator words. -/
def md5compress (st : Nat × Nat × Nat × Nat) (chunk : List Nat) :
    Nat × Nat × Nat × Nat :=
  let (a, b, c, d) := (List.range 64).foldl (md5round chunk) st
  ((st.1 + a) % 2 ^ 32, (st.2.1 + b) % 2 ^ 32,
   (st.2.2.1 + c) % 2 ^ 32, (st.2.2.2 + d) % 2 ^ 32)

/-- MD5 padding: append `0x80`, zeros to 56 mod 64, then the 64-bit
little-endian bit length. -/
def md5pad (msg : List Nat) : List Nat :=
  let len := msg.length
  let zeros := (119 - len % 64) % 64
  let bitLen := (8 * len) % 2 ^ 64
  msg ++ [0x80] ++ List.replicate zeros 0 ++
    [bitLen % 256, bitLen / 2 ^ 8 % 256, bitLen / 2 ^ 16 % 256,
     bitLen / 2 ^ 24 % 256, bitLen / 2 ^ 32 % 256, bitLen / 2 ^ 40 % 256,
     bitLen / 2 ^ 48 % 256, bitLen / 2 ^ 56 % 256]

/-- Split a byte list into 64-byte chunks, fueled by the list length so the
recursion is structural (the fuel never runs out since dropping 64 elements
of a nonempty list shortens it). -/
def md5chunksAux : Nat → List Nat → List (List Nat)
  | _, [] => []
  | 0, _ :: _ => []
  | fuel + 1, l => l.take 64 :: md5chunksAux fuel (l.drop 64)

/-- Split a byte list into 64-byte chunks. -/
def md5chunks (l : List Nat) : List (List Nat) :=
  md5chunksAux l.length l

/-- The four bytes of a 32-bit word, little-endian. -/
def wordBytesLE (x : Nat) : List Nat :=
  [x % 256, x / 256 % 256, x / 65536 % 256, x / 16777216 % 256]

/-- The 16 digest bytes of an MD5 state. -/
def md5digestBytes (st : Nat × Nat × Nat × Nat) : List Nat :=
  wordBytesLE st.1 ++ wordBytesLE st.2.1 ++ wordBytesLE st.2.2.1 ++
    wordBytesLE st.2.2.2

/-- Lowercase hexadecimal digit for a value below 16. -/
def hexDigit (n : Nat) : Char :=
  if n < 10 then Char.ofNat (48 + n) else Char.ofNat (87 + n)

/-- Lowercase hex characters of a byte list, two per byte. -/
def bytesToHexChars : List Nat → List Char
  | [] => []
  | b :: t => hexDigit (b / 16 % 16) :: hexDigit (b % 16) :: bytesToHexChars t

/-- MD5 of a byte list as the 32-character lowercase hex digest
(Python `hashlib.md5(bytes).hexdigest()`). -/
def md5hex (msg : List Nat) : String :=
  let st := (md5chunks (md5pad msg)).foldl md5compress
    (0x67452301, 0xefcdab89, 0x98badcfe, 0x10325476)
  String.mk (bytesToHexChars (md5digestBytes st))

/-! ## Model of datetime.strptime (format %Y-%m-%d %H:%M:%S) and strftime -/

/-- A parsed date-time, as produced by Python's `datetime`. -/
structure DateTime where
  year : Nat
  month : Nat
  day : Nat
  hour : Nat
  minute : Nat
  second : Nat
deriving DecidableEq, Repr

/-- Numeric value of a decimal digit character. -/
def dval (c : Char) : Nat := c.toNat - 48

/-- Parse one numeric field the way Python's `_strptime` regex does: two
digits when their value lies in `[lo2, hi2]`, otherwise a single digit
(which must be nonzero unless `zeroOk`). When two digits are present but
out of range the whole parse fails, since the following literal is never a
digit. -/
def parseField (lo2 hi2 : Nat) (zeroOk : Bool) :
    List Char → Option (Nat × List Char)
  | c1 :: c2 :: rest =>
    if c1.isDigit && c2.isDigit then
      let v := 10 * dval c1 + dval c2
      if lo2 ≤ v && v ≤ hi2 then some (v, rest) else none
    else if c1.isDigit && (zeroOk || dval c1 != 0) then
      some (dval c1, c2 :: rest)
    else none
  | [c1] =>
    if c1.isDigit && (zeroOk || dval c1 != 0) then some (dval c1, []) else none
  | [] => none

/-- Match one literal character. -/
def lit (c : Char) : List Char → Option (List Char)
  | c1 :: rest => if c1 = c then some rest else none
  | [] => none

/-- Match one or more whitespace characters (a literal space in a
`strptime` format compiles to the regex `\s+`). -/
def litSpace : List Char → Option (List Char)
  | c1 :: rest =>
    if c1.isWhitespace then
      match rest with
      | c2 :: _ => if c2.isWhitespace then litSpace rest else some rest
      | [] => some rest
    else none
  | [] => none

/-- Gregorian leap year. -/
def isLeap (y : Nat) : Bool :=
  (y % 4 == 0 && y % 100 != 0) || y % 400 == 0

/-- Days in a month, as validated by the `datetime` constructor. -/
def daysInMonth (y m : Nat) : Nat :=
  if m = 2 then (if isLeap y then 29 else 28)
  else if m = 4 || m = 6 || m = 9 || m = 11 then 30
  else 31

/-- Model of datetime.strptime with format %Y-%m-%d %H:%M:%S: `%Y` is exactly
four digits; month, day, hour, minute, second are one or two digits with the
regex ranges of `_strptime`; the full string must be consumed; and the
`datetime` constructor then requires a year of at least 1, a day valid for
the month, and a second below 60. Returns `none` where Python raises
`ValueError`. -/
def parseDateTime (s : String) : Option DateTime :=
  match s.data with
  | y1 :: y2 :: y3 :: y4 :: rest =>
    if y1.isDigit && y2.isDigit && y3.isDigit && y4.isDigit then
      let y := 1000 * dval y1 + 100 * dval y2 + 10 * dval y3 + dval y4
      match lit '-' rest with
      | none => none
      | some r1 =>
        match parseField 1 12 false r1 with
        | none => none
        | some (mo, r2) =>
          match lit '-' r2 with
          | none => none
          | some r3 =>
            match parseField 1 31 false r3 with
            | none => none
            | some (d, r4) =>
              match litSpace r4 with
              | none => none
              | some r5 =>
                match parseField 0 23 true r5 with
                | none => none
                | some (h, r6) =>
                  match lit ':' r6 with
                  | none => none
                  | some r7 =>
                    match parseField 0 59 true r7 with
                    | none => none
                    | some (mi, r8) =>
                      match lit ':' r8 with
                      | none => none
                      | some r9 =>
                        match parseField 0 61 true r9 with
                        | none => none
                        | some (sec, r10) =>
                          if r10 = [] && 1 ≤ y && d ≤ daysInMonth y mo &&
                              sec ≤ 59 then
                            some ⟨y, mo, d, h, mi, sec⟩
                          else none
    else none
  | _ => none

/-- strftime with %m or %d: zero-padded to two digits. -/
def pad2 (n : Nat) : String :=
  if n < 10 then "0" ++ toString n else toString n

/-- strftime with %Y on Linux: the year with no padding. -/
def fmtYear (n : Nat) : String := toString n

/-! ## Data model: feed items, metadata rows, filesystem, environment -/

/-- A feed item as delivered by the listing endpoint: a dictionary whose
keys may be absent (`none` models a missing key; indexing a missing key
raises `KeyError`). -/
structure NewsItem where
  title : Option String
  brief : Option String
  focus_date : Option String
  url : Option String
  keywords : Option String
deriving DecidableEq, Repr

/-- One row of the `news` table. -/
structure NewsRecord where
  title : String
  summary : String
  publish_time : String
  keywords : String
  crawl_time : Nat
  content_file_path : Option String
deriving DecidableEq, Repr

/-- The filesystem under the crawler: the set of existing directories and
the files with their contents, each addressed by its component list. -/
structure FS where
  dirs : List (List String)
  files : List (List String × String)
deriving DecidableEq, Repr

/-- The mutable state threaded through `save_news_to_db`: the `news` table
(keyed association list in insertion order), the filesystem, the URLs that
have been passed to `fetch_detailed_content`, and the error log of the
per-item `except` handler. -/
structure PState where
  db : List (String × NewsRecord)
  fs : FS
  fetched : List String
  errlogs : List String
deriving DecidableEq, Repr

/-- The external world: the Detail Fetcher as an oracle from URL to the
result of `fetch_detailed_content` (`none` models every soft failure), an
I/O-failure oracle for file writes, an oracle for the SQLite statements
raising, the current date (for the strptime fallback), the current
timestamp tick, and `content_base_dir`. -/
structure Env where
  fetch_detailed_content : String → Option String
  writeFails : List String → Bool
  dbRaises : String → Bool
  now : DateTime
  nowTick : Nat
  content_base_dir : String

/-- Python truthiness of an optional string: `None` and the empty string
are falsy. -/
def truthy : Option String → Bool
  | none => false
  | some s => s.length != 0

/-- `SELECT ... FROM news WHERE content_hash = ?` on the model table. -/
def dbLookup (db : List (String × NewsRecord)) (h : String) :
    Option NewsRecord :=
  (db.find? (fun e => e.1 == h)).map Prod.snd

/-- The `UPDATE news SET content_file_path = ?, crawl_time =
CURRENT_TIMESTAMP WHERE content_hash = ?` statement. -/
def dbUpdate (db : List (String × NewsRecord)) (h : String)
    (cfp : Option String) (ts : Nat) : List (String × NewsRecord) :=
  db.map (fun e =>
    if e.1 == h then
      (e.1, { e.2 with content_file_path := cfp, crawl_time := ts })
    else e)

/-! ## The crawler operations -/

/-- The digest of `get_content_hash`: MD5 hex of the UTF-8 bytes of the
title and brief concatenated with no separator. -/
def contentHash (title brief : String) : String :=
  md5hex (utf8Bytes (title ++ brief))

/-- `CCTVNewsCrawler.get_content_hash`: reads `title` and `brief` from the
item dictionary (raising `KeyError` when absent) and hashes their
concatenation. -/
def get_content_hash (item : NewsItem) : Except String String :=
  match item.title, item.brief with
  | some t, some b => .ok (contentHash t b)
  | _, _ => .error "KeyError: title or brief"

/-- Record one directory as existing (no-op when already present). -/
def FS.addDir (fs : FS) (lvl : List String) : FS :=
  if fs.dirs.contains lvl then fs
  else { fs with dirs := fs.dirs ++ [lvl] }

/-- `os.makedirs(path, exist_ok=True)`: create every missing level of the
directory path. -/
def makedirs (fs : FS) (p : List String) : FS :=
  (List.range p.length).foldl (fun acc i => acc.addDir (p.take (i + 1))) fs

/-- `CCTVNewsCrawler.get_content_file_path`: parse `publish_time` with
strptime; on success derive year/month/day from it, on any exception use
the current date; in both branches create the directory levels under
`content_base_dir` and return the relative path
`year/month/day/content_hash.txt`. -/
def get_content_file_path (env : Env) (fs : FS)
    (content_hash publish_time : String) : FS × String :=
  match parseDateTime publish_time with
  | some dt =>
    let year := fmtYear dt.year
    let month := pad2 dt.month
    let day := pad2 dt.day
    let fs := makedirs fs [env.content_base_dir, year, month, day]
    (fs, year ++ "/" ++ month ++ "/" ++ day ++ "/" ++ content_hash ++ ".txt")
  | none =>
    let year := fmtYear env.now.year
    let month := pad2 env.now.month
    let day := pad2 env.now.day
    let fs := makedirs fs [env.content_base_dir, year, month, day]
    (fs, year ++ "/" ++ month ++ "/" ++ day ++ "/" ++ content_hash ++ ".txt")

/-- Path components of a relative path string. -/
def splitPath (p : String) : List String := p.splitOn "/"

/-- Overwrite-or-create a file in the model filesystem. -/
def writeFile (fs : FS) (p : List String) (content : String) : FS :=
  { fs with files := (p, content) :: fs.files.filter (fun e => !(e.1 == p)) }

/-- `CCTVNewsCrawler.save_detailed_content`: empty (falsy) content returns
failure at once; otherwise `open(full_path, w)` succeeds only when the
parent directory exists and no I/O error is injected, and any exception
yields failure with the filesystem unchanged. It never creates
directories. -/
def save_detailed_content (env : Env) (fs : FS)
    (file_path detailed_content : String) : FS × Bool :=
  if detailed_content.length == 0 then (fs, false)
  else
    let full := env.content_base_dir :: splitPath file_path
    if fs.dirs.contains full.dropLast && !env.writeFails full then
      (writeFile fs full detailed_content, true)
    else (fs, false)

/-- Lines 170-188 of `save_news_to_db`, the part before the `try`: look up
the existing row; when detail is wanted and the stored path is falsy, index
`url` (KeyError when absent, uncaught), call the Detail Fetcher, and on a
truthy result index `focus_date` (KeyError when absent, uncaught), derive
the file path and write the file, keeping the path only when the write
succeeded; otherwise an existing row contributes its stored path. Returns
the updated state, the local `content_file_path`, and the fetched row. -/
def preStep (env : Env) (fetch_detailed : Bool) (st : PState)
    (item : NewsItem) (content_hash : String) :
    Except String (PState × Option String × Option NewsRecord) :=
  let existing := dbLookup st.db content_hash
  let existingPath : Option String :=
    match existing with
    | some r => r.content_file_path
    | none => none
  if fetch_detailed && (existing.isNone || !truthy existingPath) then
    match item.url with
    | none => .error "KeyError: url"
    | some u =>
      let st := { st with fetched := st.fetched ++ [u] }
      match env.fetch_detailed_content u with
      | some dcontent =>
        if dcontent.length != 0 then
          match item.focus_date with
          | none => .error "KeyError: focus_date"
          | some fd =>
            let res := get_content_file_path env st.fs content_hash fd
            let res2 := save_detailed_content env res.1 res.2 dcontent
            .ok ({ st with fs := res2.1 },
              if res2.2 then some res.2 else none, existing)
        else .ok (st, none, existing)
      | none => .ok (st, none, existing)
  else if existing.isSome then
    .ok (st, existingPath, existing)
  else
    .ok (st, none, existing)

/-- The log line of the `except` handler, `保存新闻失败: {title}`. -/
def saveFailLog (title : String) : String := "保存新闻失败: " ++ title

/-- Lines 190-219 of `save_news_to_db`, the `try` block and its handler:
backfill-update an existing row when the freshly computed path is truthy
and the stored one is not, otherwise count a duplicate; insert a new row
(indexing `focus_date`, whose `KeyError` is caught here) otherwise. Any
exception from a statement is caught and logged with the item title,
leaving state and counters unchanged. -/
def tryPersist (env : Env) (st : PState) (t b : String) (item : NewsItem)
    (content_hash : String) (content_file_path : Option String)
    (existing : Option NewsRecord) (nc dc : Nat) : PState × Nat × Nat :=
  match existing with
  | some exr =>
    if truthy content_file_path && !truthy exr.content_file_path then
      if env.dbRaises content_hash then
        ({ st with errlogs := st.errlogs ++ [saveFailLog t] }, nc, dc)
      else
        ({ st with
            db := dbUpdate st.db content_hash content_file_path env.nowTick },
          nc + 1, dc)
    else (st, nc, dc + 1)
  | none =>
    match item.focus_date with
    | some fd =>
      if env.dbRaises content_hash then
        ({ st with errlogs := st.errlogs ++ [saveFailLog t] }, nc, dc)
      else
        ({ st with
            db := st.db ++ [(content_hash,
              { title := t, summary := b, publish_time := fd,
                keywords := item.keywords.getD "",
                crawl_time := env.nowTick,
                content_file_path := content_file_path })] },
          nc + 1, dc)
    | none => ({ st with errlogs := st.errlogs ++ [saveFailLog t] }, nc, dc)

/-- One iteration of the loop of `save_news_to_db` over a single item:
hash (KeyError on a missing title or brief propagates, since it is raised
before the `try`), then the pre-`try` phase, then the guarded persistence
phase. -/
def processItem (env : Env) (fetch_detailed : Bool)
    (acc : PState × Nat × Nat) (item : NewsItem) :
    Except String (PState × Nat × Nat) :=
  match item.title, item.brief with
  | some t, some b =>
    let content_hash := contentHash t b
    match preStep env fetch_detailed acc.1 item content_hash with
    | .error e => .error e
    | .ok (st, cfp, existing) =>
      .ok (tryPersist env st t b item content_hash cfp existing
        acc.2.1 acc.2.2)
  | _, _ => .error "KeyError: title or brief"

/-- The `for news_item in news_list` loop of `save_news_to_db`. -/
def saveLoop (env : Env) (fetch_detailed : Bool) :
    List NewsItem → PState × Nat × Nat → Except String (PState × Nat × Nat)
  | [], acc => .ok acc
  | item :: rest, acc =>
    match processItem env fetch_detailed acc item with
    | .error e => .error e
    | .ok acc2 => saveLoop env fetch_detailed rest acc2

/-- `CCTVNewsCrawler.save_news_to_db`: run the loop with both counters at
zero and return the final state with `(new_count, duplicate_count)`. -/
def save_news_to_db (env : Env) (st : PState) (news_list : List NewsItem)
    (fetch_detailed : Bool) : Except String (PState × Nat × Nat) :=
  saveLoop env fetch_detailed news_list (st, 0, 0)

/-- Every non-null `content_file_path` stored in the table is a non-empty
string, so it is truthy in every check the pipeline performs. -/
def goodDB (db : List (String × NewsRecord)) : Bool :=
  db.all (fun e =>
    match e.2.content_file_path with
    | none => true
    | some p => p.length != 0)

/-- Whether the `try` block reaches an SQL statement at all: an existing
row executes a statement only on the backfill path, a fresh item always
executes the insert. -/
def reachesExecute (existing : Option NewsRecord)
    (cfp : Option String) : Bool :=
  match existing with
  | some r => truthy cfp && !truthy r.content_file_path
  | none => true

/-- Sufficient condition for one loop iteration not to raise an uncaught
exception: title and brief present, and when detail is wanted, a `url`
present and a `focus_date` present whenever the fetched content is truthy. -/
def itemOk (env : Env) (fd : Bool) (it : NewsItem) : Bool :=
  it.title.isSome && it.brief.isSome &&
    (!fd ||
      match it.url with
      | none => false
      | some u =>
        match env.fetch_detailed_content u with
        | none => true
        | some c => c.length == 0 || it.focus_date.isSome)

/-! ## Concrete fixtures for witnesses and scenarios -/

/-- An empty filesystem. -/
def fs0 : FS := { dirs := [], files := [] }

/-- The empty pipeline state (fresh database, empty filesystem). -/
def st0 : PState := { db := [], fs := fs0, fetched := [], errlogs := [] }

/-- A quiet environment: every detail fetch fails softly, no I/O or SQL
errors, current date 2025-06-15. -/
def envStub : Env :=
  { fetch_detailed_content := fun _ => none,
    writeFails := fun _ => false,
    dbRaises := fun _ => false,
    now := ⟨2025, 6, 15, 0, 0, 0⟩,
    nowTick := 0,
    content_base_dir := "news" }

/-- The feed item of the spec scenario. -/
def itemA : NewsItem :=
  { title := some "A", brief := some "B",
    focus_date := some "2024-01-01 10:00:00",
    url := some "http://x/1", keywords := none }

/-- A second, distinct feed item. -/
def itemC : NewsItem :=
  { title := some "C", brief := some "D",
    focus_date := some "2024-01-02 10:00:00",
    url := some "http://x/2", keywords := none }

/-- `envStub` but the SQL statements raise for the identity of `itemA`. -/
def env9 : Env :=
  { envStub with dbRaises := fun h => h == contentHash "A" "B" }

/-- `envStub` but every detail fetch succeeds with fixed text. -/
def envFetch : Env :=
  { envStub with
    fetch_detailed_content := fun _ => some "Paragraph one.\nParagraph two." }

/-- The row `itemA` produces when inserted without detail at tick 0. -/
def recAB : NewsRecord :=
  { title := "A", summary := "B", publish_time := "2024-01-01 10:00:00",
    keywords := "", crawl_time := 0, content_file_path := none }

/-- State holding exactly the detail-less `itemA` row. -/
def stAB : PState := { st0 with db := [(contentHash "A" "B", recAB)] }

/-- The `itemA` row with a content file already attached. -/
def recABPathed : NewsRecord :=
  { recAB with
    content_file_path := some "2024/01/01/b86fc6b051f63d73de262d4c34e3a0a9.txt" }

/-- State holding the `itemA` row with its content file path attached. -/
def stABPathed : PState :=
  { st0 with db := [(contentHash "A" "B", recABPathed)] }

/-- The row `itemC` produces when inserted without detail at tick 0. -/
def recCD : NewsRecord :=
  { title := "C", summary := "D", publish_time := "2024-01-02 10:00:00",
    keywords := "", crawl_time := 0, content_file_path := none }

/-- The state after running `[itemA, itemC]` with detail wanted against
`stABPathed` under `envStub`: `itemA` is a duplicate, `itemC` is fetched
(softly failing) and inserted without detail. -/
def stC4 : PState :=
  { st0 with
    db := [(contentHash "A" "B", recABPathed), (contentHash "C" "D", recCD)],
    fetched := ["http://x/2"] }

/-- `st0` after the failure of persisting `itemA` was logged. -/
def stLogA : PState := { st0 with errlogs := [saveFailLog "A"] }

/-- A malformed feed item with no `title` key. -/
def itemNoTitle : NewsItem :=
  { title := none, brief := some "B", focus_date := some "2024-01-01 10:00:00",
    url := some "http://x/1", keywords := none }

/-! ## Basic lemmas about the model -/

theorem bytesToHexChars_length (l : List Nat) :
    (bytesToHexChars l).length = 2 * l.length := by
  induction l with
  | nil => rfl
  | cons b t ih =>
    simp only [bytesToHexChars, List.length_cons, ih]
    omega

theorem md5hex_length (msg : List Nat) : (md5hex msg).length = 32 := by
  unfold md5hex
  simp only [String.length, bytesToHexChars_length, md5digestBytes,
    wordBytesLE, List.length_append, List.length_cons, List.length_nil]

theorem get_content_file_path_ne_empty (env : Env) (fs : FS)
    (h pt : String) : ((get_content_file_path env fs h pt).2).length ≠ 0 := by
  unfold get_content_file_path
  have hs : String.length "/" = 1 := rfl
  cases hp : parseDateTime pt <;>
    simp [String.length_append, hs]

theorem dbLookup_append_some (l : List (String × NewsRecord))
    {db : List (String × NewsRecord)} {k : String} {r : NewsRecord}
    (h : dbLookup db k = some r) : dbLookup (db ++ l) k = some r := by
  unfold dbLookup at h ⊢
  rw [List.find?_append]
  cases hf : List.find? (fun e => e.1 == k) db with
  | none => rw [hf] at h; simp at h
  | some e => rw [hf] at h; simpa using h

theorem dbLookup_append_ne (db : List (String × NewsRecord))
    (k2 k : String) (rec : NewsRecord) (h : (k2 == k) = false) :
    dbLookup (db ++ [(k2, rec)]) k = dbLookup db k := by
  unfold dbLookup
  rw [List.find?_append]
  cases hf : List.find? (fun e => e.1 == k) db with
  | none => simp [List.find?, h]
  | some e => simp

theorem dbLookup_dbUpdate_ne (db : List (String × NewsRecord))
    {k2 k : String} (cfp : Option String) (ts : Nat) (h : k2 ≠ k) :
    dbLookup (dbUpdate db k2 cfp ts) k = dbLookup db k := by
  induction db with
  | nil => rfl
  | cons e t ih =>
    unfold dbUpdate dbLookup at ih ⊢
    by_cases h1 : e.1 == k2
    · have h2 : (e.1 == k) = false := by
        simp only [beq_iff_eq] at h1 ⊢
        simp [h1, h]
      simp only [List.map_cons, h1, if_true, List.find?_cons, h2, cond_false]
      exact ih
    · simp only [List.map_cons, h1, if_false, Bool.false_eq_true,
        List.find?_cons]
      cases h3 : (e.1 == k) with
      | true => simp
      | false => simp only [cond_false]; exact ih

/-- A row is good when its stored path, if non-null, is non-empty. -/
theorem goodDB_cons (e : String × NewsRecord)
    (db : List (String × NewsRecord)) :
    goodDB (e :: db) =
      ((match e.2.content_file_path with
        | none => true
        | some p => p.length != 0) && goodDB db) := by
  rfl

theorem goodDB_lookup (db : List (String × NewsRecord)) (k : String)
    (r : NewsRecord) (hg : goodDB db = true) (hk : dbLookup db k = some r) :
    (match r.content_file_path with
      | none => true
      | some p => p.length != 0) = true := by
  unfold dbLookup at hk
  cases hf : List.find? (fun e => e.1 == k) db with
  | none => rw [hf] at hk; simp at hk
  | some e =>
    rw [hf] at hk
    simp at hk
    subst hk
    have hmem := List.mem_of_find?_eq_some hf
    unfold goodDB at hg
    rw [List.all_eq_true] at hg
    exact hg e hmem

theorem goodDB_lookup_truthy (db : List (String × NewsRecord)) (k : String)
    (r : NewsRecord) (p : String) (hg : goodDB db = true)
    (hk : dbLookup db k = some r) (hp : r.content_file_path = some p) :
    truthy r.content_file_path = true := by
  have := goodDB_lookup db k r hg hk
  rw [hp] at this ⊢
  exact this

theorem goodDB_append_one (db : List (String × NewsRecord)) (k : String)
    (rec : NewsRecord) (hg : goodDB db = true)
    (hr : (match rec.content_file_path with
      | none => true
      | some p => p.length != 0) = true) :
    goodDB (db ++ [(k, rec)]) = true := by
  unfold goodDB at hg ⊢
  rw [List.all_append, hg]
  simpa using hr

theorem goodDB_dbUpdate (db : List (String × NewsRecord)) (k : String)
    (cfp : Option String) (ts : Nat) (hg : goodDB db = true)
    (hc : truthy cfp = true) : goodDB (dbUpdate db k cfp ts) = true := by
  unfold goodDB at hg ⊢
  unfold dbUpdate
  rw [List.all_eq_true] at hg ⊢
  intro x hx
  rw [List.mem_map] at hx
  obtain ⟨e, he, hxe⟩ := hx
  by_cases h1 : e.1 == k
  · rw [if_pos h1] at hxe
    subst hxe
    cases cfp with
    | none => simp [truthy] at hc
    | some p => simpa [truthy] using hc
  · rw [if_neg h1] at hxe
    subst hxe
    exact hg e he

theorem FS.addDir_contains (fs : FS) (lvl : List String) :
    ((fs.addDir lvl).dirs.contains lvl) = true := by
  unfold FS.addDir
  split
  · assumption
  · exact List.elem_iff.mpr (by simp)

theorem FS.addDir_mono (fs : FS) (lvl x : List String)
    (h : fs.dirs.contains x = true) :
    ((fs.addDir lvl).dirs.contains x) = true := by
  unfold FS.addDir
  split
  · exact h
  · exact List.elem_iff.mpr (List.mem_append_left _ (List.elem_iff.mp h))

theorem makedirs4_contains (fs : FS) (a b c d : String) :
    ((makedirs fs [a, b, c, d]).dirs.contains [a, b, c, d]) = true ∧
    ((makedirs fs [a, b, c, d]).dirs.contains [a, b, c]) = true ∧
    ((makedirs fs [a, b, c, d]).dirs.contains [a, b]) = true ∧
    ((makedirs fs [a, b, c, d]).dirs.contains [a]) = true := by
  have hr : List.range 4 = [0, 1, 2, 3] := rfl
  unfold makedirs
  rw [show ([a, b, c, d] : List String).length = 4 from rfl, hr]
  simp only [List.foldl_cons, List.foldl_nil, List.take]
  refine ⟨FS.addDir_contains _ _, ?_, ?_, ?_⟩ <;>
    apply FS.addDir_mono
  · apply FS.addDir_contains
  · apply FS.addDir_mono
    apply FS.addDir_contains
  · apply FS.addDir_mono
    apply FS.addDir_mono
    apply FS.addDir_contains

/-! ## Duplicate handling -/

/-- When a row for the identity exists and, if detail is wanted, its path is
truthy, the pre-`try` phase leaves the state alone and passes the stored
path through. -/
theorem preStep_dup (env : Env) (fd : Bool) (st : PState) (item : NewsItem)
    (k : String) (r : NewsRecord) (hr : dbLookup st.db k = some r)
    (hp : fd = true → truthy r.content_file_path = true) :
    preStep env fd st item k = .ok (st, r.content_file_path, some r) := by
  unfold preStep
  rw [hr]
  cases fd with
  | false => simp
  | true => simp [hp rfl]

/-- Such an item is counted as a duplicate and the state is unchanged. -/
theorem processItem_dup (env : Env) (fd : Bool) (st : PState) (nc dc : Nat)
    (item : NewsItem) (t b : String) (r : NewsRecord)
    (ht : item.title = some t) (hb : item.brief = some b)
    (hr : dbLookup st.db (contentHash t b) = some r)
    (hp : fd = true → truthy r.content_file_path = true) :
    processItem env fd (st, nc, dc) item = .ok (st, nc, dc + 1) := by
  unfold processItem
  simp only [ht, hb]
  rw [preStep_dup env fd st item (contentHash t b) r hr hp]
  unfold tryPersist
  simp [Bool.and_not_self]

/-- A whole batch of such items is counted entirely as duplicates, with the
state unchanged. -/
theorem saveLoop_dups (env : Env) (fd : Bool) (st : PState)
    (batch : List NewsItem)
    (h : ∀ it ∈ batch, ∃ t b r, it.title = some t ∧ it.brief = some b ∧
      dbLookup st.db (contentHash t b) = some r ∧
      (fd = true → truthy r.content_file_path = true)) :
    ∀ nc dc, saveLoop env fd batch (st, nc, dc) =
      .ok (st, nc, dc + batch.length) := by
  induction batch with
  | nil => intro nc dc; simp [saveLoop]
  | cons it rest ih =>
    intro nc dc
    obtain ⟨t, b, r, ht, hb, hr, hp⟩ := h it (by simp)
    have hpi := processItem_dup env fd st nc dc it t b r ht hb hr hp
    unfold saveLoop
    rw [hpi]
    dsimp only
    have hrest := ih (fun x hx => h x (by simp [hx])) nc (dc + 1)
    rw [hrest]
    have harith : dc + 1 + rest.length = dc + (rest.length + 1) := by omega
    rw [harith]
    rfl

/-! ## Shape of the pre-try phase and preservation through persistence -/

/-- Whatever the pre-`try` phase does, the row it fetched is the stored
one, the table and error log are untouched, and the local
`content_file_path` is null, a non-empty fresh path, or the stored path. -/
theorem preStep_spec (env : Env) (fd : Bool) (st : PState) (item : NewsItem)
    (k : String) (st1 : PState) (cfp : Option String) (ex : Option NewsRecord)
    (h : preStep env fd st item k = .ok (st1, cfp, ex)) :
    ex = dbLookup st.db k ∧ st1.db = st.db ∧ st1.errlogs = st.errlogs ∧
      (cfp = none ∨ (∃ p, cfp = some p ∧ p.length ≠ 0) ∨
        (∃ r, ex = some r ∧ cfp = r.content_file_path)) := by
  simp only [preStep] at h
  split at h
  · -- detail-fetch branch
    cases hu : item.url with
    | none =>
      rw [hu] at h
      exact absurd h (by simp)
    | some u =>
      rw [hu] at h
      dsimp only at h
      cases hfc : env.fetch_detailed_content u with
      | none =>
        rw [hfc] at h
        dsimp only at h
        simp only [Except.ok.injEq, Prod.mk.injEq] at h
        obtain ⟨h1, h2, h3⟩ := h
        subst h1; subst h2; subst h3
        exact ⟨rfl, rfl, rfl, Or.inl rfl⟩
      | some dcontent =>
        rw [hfc] at h
        dsimp only at h
        by_cases hlen : (dcontent.length != 0) = true
        · rw [if_pos hlen] at h
          cases hfd : item.focus_date with
          | none =>
            rw [hfd] at h
            exact absurd h (by simp)
          | some fdate =>
            rw [hfd] at h
            dsimp only at h
            simp only [Except.ok.injEq, Prod.mk.injEq] at h
            obtain ⟨h1, h2, h3⟩ := h
            subst h1; subst h2; subst h3
            refine ⟨rfl, rfl, rfl, ?_⟩
            split
            · exact Or.inr (Or.inl ⟨_, rfl,
                get_content_file_path_ne_empty env st.fs k fdate⟩)
            · exact Or.inl rfl
        · rw [if_neg hlen] at h
          simp only [Except.ok.injEq, Prod.mk.injEq] at h
          obtain ⟨h1, h2, h3⟩ := h
          subst h1; subst h2; subst h3
          exact ⟨rfl, rfl, rfl, Or.inl rfl⟩
  · -- no detail fetch
    split at h
    · simp only [Except.ok.injEq, Prod.mk.injEq] at h
      obtain ⟨h1, h2, h3⟩ := h
      subst h1; subst h2; subst h3
      refine ⟨rfl, rfl, rfl, ?_⟩
      cases hex : dbLookup st.db k with
      | none => exact Or.inl rfl
      | some r => exact Or.inr (Or.inr ⟨r, rfl, rfl⟩)
    · simp only [Except.ok.injEq, Prod.mk.injEq] at h
      obtain ⟨h1, h2, h3⟩ := h
      subst h1; subst h2; subst h3
      exact ⟨rfl, rfl, rfl, Or.inl rfl⟩

/-- The `try` block keeps the store invariant: every stored non-null path
stays non-empty. -/
theorem tryPersist_good (env : Env) (st : PState) (t b : String)
    (item : NewsItem) (k : String) (cfp : Option String)
    (ex : Option NewsRecord) (nc dc : Nat)
    (hg : goodDB st.db = true)
    (hcfp : cfp = none ∨ (∃ p, cfp = some p ∧ p.length ≠ 0) ∨
      (∃ r, ex = some r ∧ cfp = r.content_file_path)) :
    goodDB (tryPersist env st t b item k cfp ex nc dc).1.db = true := by
  unfold tryPersist
  cases ex with
  | some exr =>
    dsimp only
    by_cases hcond : (truthy cfp && !truthy exr.content_file_path) = true
    · rw [if_pos hcond]
      by_cases hr : env.dbRaises k = true
      · rw [if_pos hr]
        exact hg
      · rw [if_neg hr]
        rw [Bool.and_eq_true] at hcond
        exact goodDB_dbUpdate st.db k cfp env.nowTick hg hcond.1
    · rw [if_neg hcond]
      exact hg
  | none =>
    cases hfd : item.focus_date with
    | some fdate =>
      dsimp only
      by_cases hr : env.dbRaises k = true
      · rw [if_pos hr]
        exact hg
      · rw [if_neg hr]
        apply goodDB_append_one st.db k _ hg
        rcases hcfp with hc | ⟨p, hc, hlen⟩ | ⟨r, hrr, _⟩
        · subst hc; rfl
        · subst hc; simpa using hlen
        · cases hrr
    | none => exact hg

/-- The `try` block never touches a row whose stored path is truthy. -/
theorem tryPersist_pathed (env : Env) (st : PState) (t b : String)
    (item : NewsItem) (k : String) (cfp : Option String)
    (ex : Option NewsRecord) (nc dc : Nat) (k0 : String) (r0 : NewsRecord)
    (h0 : dbLookup st.db k0 = some r0)
    (htr : truthy r0.content_file_path = true)
    (hex : ex = dbLookup st.db k) :
    dbLookup (tryPersist env st t b item k cfp ex nc dc).1.db k0 = some r0 := by
  unfold tryPersist
  cases ex with
  | some exr =>
    dsimp only
    by_cases hcond : (truthy cfp && !truthy exr.content_file_path) = true
    · rw [if_pos hcond]
      by_cases hr : env.dbRaises k = true
      · rw [if_pos hr]
        exact h0
      · rw [if_neg hr]
        by_cases hk : k = k0
        · subst hk
          rw [h0] at hex
          have hexr : exr = r0 := Option.some.inj hex
          subst hexr
          rw [Bool.and_eq_true] at hcond
          rw [htr] at hcond
          simp at hcond
        · dsimp only
          rw [dbLookup_dbUpdate_ne st.db cfp env.nowTick hk]
          exact h0
    · rw [if_neg hcond]
      exact h0
  | none =>
    cases hfd : item.focus_date with
    | some fdate =>
      dsimp only
      by_cases hr : env.dbRaises k = true
      · rw [if_pos hr]
        exact h0
      · rw [if_neg hr]
        have hk : (k == k0) = false := by
          by_cases hkk : k = k0
          · subst hkk
            rw [h0] at hex
            cases hex
          · simpa using hkk
        dsimp only
        rw [dbLookup_append_ne st.db k k0 _ hk]
        exact h0
    | none => exact h0

/-- Processing one item preserves the store invariant and never touches a
row whose stored path is truthy. -/
theorem processItem_preserves (env : Env) (fd : Bool) (st : PState)
    (nc dc : Nat) (item : NewsItem) (st2 : PState) (nc2 dc2 : Nat)
    (k0 : String) (r0 : NewsRecord)
    (hg : goodDB st.db = true)
    (h0 : dbLookup st.db k0 = some r0)
    (htr : truthy r0.content_file_path = true)
    (h : processItem env fd (st, nc, dc) item = .ok (st2, nc2, dc2)) :
    goodDB st2.db = true ∧ dbLookup st2.db k0 = some r0 := by
  unfold processItem at h
  cases ht : item.title with
  | none =>
    rw [ht] at h
    simp at h
  | some t =>
    cases hb : item.brief with
    | none =>
      rw [ht, hb] at h
      simp at h
    | some b =>
      rw [ht, hb] at h
      dsimp only at h
      cases hps : preStep env fd st item (contentHash t b) with
      | error e =>
        rw [hps] at h
        simp at h
      | ok out =>
        obtain ⟨st1, cfp, ex⟩ := out
        rw [hps] at h
        dsimp only at h
        obtain ⟨hex, hdb1, _, hcfp⟩ :=
          preStep_spec env fd st item (contentHash t b) st1 cfp ex hps
        have h2 : tryPersist env st1 t b item (contentHash t b) cfp ex nc dc =
            (st2, nc2, dc2) := Except.ok.inj h
        have hgood := tryPersist_good env st1 t b item (contentHash t b)
          cfp ex nc dc (by rw [hdb1]; exact hg) hcfp
        have hpath := tryPersist_pathed env st1 t b item (contentHash t b)
          cfp ex nc dc k0 r0 (by rw [hdb1]; exact h0) htr
          (by rw [hdb1]; exact hex)
        rw [h2] at hgood hpath
        exact ⟨hgood, hpath⟩

/-- The batch loop preserves the store invariant and every row whose
stored path is truthy. -/
theorem saveLoop_preserves (env : Env) (fd : Bool) (items : List NewsItem) :
    ∀ (st : PState) (nc dc : Nat) (st2 : PState) (nc2 dc2 : Nat)
      (k0 : String) (r0 : NewsRecord),
      goodDB st.db = true → dbLookup st.db k0 = some r0 →
      truthy r0.content_file_path = true →
      saveLoop env fd items (st, nc, dc) = .ok (st2, nc2, dc2) →
      goodDB st2.db = true ∧ dbLookup st2.db k0 = some r0 := by
  induction items with
  | nil =>
    intro st nc dc st2 nc2 dc2 k0 r0 hg h0 htr h
    unfold saveLoop at h
    simp only [Except.ok.injEq, Prod.mk.injEq] at h
    obtain ⟨h1, _, _⟩ := h
    subst h1
    exact ⟨hg, h0⟩
  | cons it rest ih =>
    intro st nc dc st2 nc2 dc2 k0 r0 hg h0 htr h
    unfold saveLoop at h
    cases hpi : processItem env fd (st, nc, dc) it with
    | error e =>
      rw [hpi] at h
      simp at h
    | ok acc2 =>
      rw [hpi] at h
      dsimp only at h
      obtain ⟨stm, ncm, dcm⟩ := acc2
      obtain ⟨hgm, h0m⟩ := processItem_preserves env fd st nc dc it
        stm ncm dcm k0 r0 hg h0 htr hpi
      exact ih stm ncm dcm st2 nc2 dc2 k0 r0 hgm h0m htr h

/-- An item passing `itemOk` is processed without an uncaught exception. -/
theorem processItem_total (env : Env) (fd : Bool) (acc : PState × Nat × Nat)
    (item : NewsItem) (hok : itemOk env fd item = true) :
    ∃ out, processItem env fd acc item = .ok out := by
  unfold itemOk at hok
  cases ht : item.title with
  | none =>
    rw [ht] at hok
    simp at hok
  | some t =>
    cases hb : item.brief with
    | none =>
      rw [ht, hb] at hok
      simp at hok
    | some b =>
      rw [ht, hb] at hok
      simp only [Option.isSome_some, Bool.true_and] at hok
      have hps : ∃ pout,
          preStep env fd acc.1 item (contentHash t b) = .ok pout := by
        simp only [preStep]
        split
        · rename_i hcond
          have hfdt : fd = true := by
            cases fd
            · simp at hcond
            · rfl
          rw [hfdt] at hok
          simp only [Bool.not_true, Bool.false_or] at hok
          cases hu : item.url with
          | none =>
            rw [hu] at hok
            dsimp only at hok
            simp at hok
          | some u =>
            rw [hu] at hok
            dsimp only at hok
            dsimp only
            cases hfc : env.fetch_detailed_content u with
            | none => exact ⟨_, rfl⟩
            | some c =>
              rw [hfc] at hok
              dsimp only at hok
              dsimp only
              by_cases hlen : (c.length != 0) = true
              · rw [if_pos hlen]
                cases hfo : item.focus_date with
                | none =>
                  rw [hfo] at hok
                  simp at hok hlen
                  omega
                | some fdate => exact ⟨_, rfl⟩
              · rw [if_neg hlen]
                exact ⟨_, rfl⟩
        · split
          · exact ⟨_, rfl⟩
          · exact ⟨_, rfl⟩
      obtain ⟨pout, hps⟩ := hps
      obtain ⟨st1, cfp, ex⟩ := pout
      unfold processItem
      rw [ht, hb]
      dsimp only
      rw [hps]
      exact ⟨_, rfl⟩

/-- A batch of items passing `itemOk` runs to completion and returns its
counters. -/
theorem saveLoop_total (env : Env) (fd : Bool) (items : List NewsItem) :
    ∀ acc, (∀ it ∈ items, itemOk env fd it = true) →
      ∃ out, saveLoop env fd items acc = .ok out := by
  induction items with
  | nil =>
    intro acc _
    exact ⟨acc, rfl⟩
  | cons it rest ih =>
    intro acc hall
    obtain ⟨out1, h1⟩ := processItem_total env fd acc it (hall it (by simp))
    obtain ⟨out2, h2⟩ := ih out1 (fun x hx => hall x (by simp [hx]))
    refine ⟨out2, ?_⟩
    unfold saveLoop
    rw [h1]
    exact h2

/-! ## Claim theorems -/

/-- C1: running the Ingestion Pipeline a second time over a batch whose
every item is already stored — with detail attached whenever fetchDetail is
set, or fetchDetail false — leaves the Metadata Store state (and the whole
pipeline state, filesystem and fetch trace included) unchanged: zero new
rows, no row mutated, and every item counted in duplicate_count. -/
theorem second_run_idempotent (env : Env) (fd : Bool) (st : PState)
    (batch : List NewsItem)
    (h : ∀ it ∈ batch, ∃ t b r, it.title = some t ∧ it.brief = some b ∧
      dbLookup st.db (contentHash t b) = some r ∧
      (fd = true → truthy r.content_file_path = true)) :
    save_news_to_db env st batch fd = .ok (st, 0, batch.length) := by
  unfold save_news_to_db
  have hl := saveLoop_dups env fd st batch h 0 0
  simpa using hl

/-- Witness for C1 at a concrete second run. -/
theorem second_run_idempotent_witness :
    save_news_to_db envStub stABPathed [itemA] true =
      .ok (stABPathed, 0, 1) := by
  have h := second_run_idempotent envStub true stABPathed [itemA]
    (by
      intro it hit
      simp only [List.mem_singleton] at hit
      subst hit
      exact ⟨"A", "B", recABPathed, rfl, rfl, by decide, fun _ => by decide⟩)
  simpa using h

/-- C2: an identity whose stored row already has a non-null
content_file_path is never passed to the Detail Fetcher again, regardless
of the fetchDetail flag: processing such an item returns with the entire
state — including the trace of URLs handed to fetch_detailed_content —
unchanged, counting one duplicate. (The goodDB hypothesis, preserved by
the pipeline from the empty store onward, rules out the unreachable stored
empty-string path.) -/
theorem pathed_identity_never_refetched (env : Env) (fd : Bool)
    (st : PState) (nc dc : Nat) (item : NewsItem) (t b : String)
    (r : NewsRecord) (p : String)
    (hg : goodDB st.db = true)
    (ht : item.title = some t) (hb : item.brief = some b)
    (hr : dbLookup st.db (contentHash t b) = some r)
    (hp : r.content_file_path = some p) :
    processItem env fd (st, nc, dc) item = .ok (st, nc, dc + 1) :=
  processItem_dup env fd st nc dc item t b r ht hb hr
    (fun _ => goodDB_lookup_truthy st.db (contentHash t b) r p hg hr hp)

/-- Witness for C2 at a concrete pathed row with fetchDetail set. -/
theorem pathed_identity_never_refetched_witness :
    processItem envStub true (stABPathed, 0, 0) itemA =
      .ok (stABPathed, 0, 1) :=
  pathed_identity_never_refetched envStub true stABPathed 0 0 itemA "A" "B"
    recABPathed "2024/01/01/b86fc6b051f63d73de262d4c34e3a0a9.txt"
    (by decide) rfl rfl (by decide) rfl

/-- C3-helper: under a failing detail fetch (absent or empty result) or a
failing content-file write, the pre-try phase produces a null local path
for a fresh identity, or passes the stored path through unchanged. -/
theorem preStep_fail (env : Env) (fd : Bool) (st : PState) (item : NewsItem)
    (k : String) (u fdate : String)
    (hu : item.url = some u) (hfdate : item.focus_date = some fdate)
    (hfail : match env.fetch_detailed_content u with
      | none => True
      | some c => c.length = 0 ∨
          env.writeFails (env.content_base_dir ::
            splitPath (get_content_file_path env st.fs k fdate).2) = true) :
    (∃ st1, preStep env fd st item k = .ok (st1, none, dbLookup st.db k) ∧
      st1.db = st.db) ∨
    (∃ r, dbLookup st.db k = some r ∧
      preStep env fd st item k = .ok (st, r.content_file_path, some r)) := by
  simp only [preStep]
  split
  · rw [hu]
    dsimp only
    cases hfc : env.fetch_detailed_content u with
    | none =>
      left
      exact ⟨_, rfl, rfl⟩
    | some c =>
      rw [hfc] at hfail
      dsimp only at hfail
      dsimp only
      by_cases hlen : (c.length != 0) = true
      · have hwf : env.writeFails (env.content_base_dir ::
            splitPath (get_content_file_path env st.fs k fdate).2) = true := by
          rcases hfail with h0 | hw
          · exfalso
            simp at hlen
            omega
          · exact hw
        rw [if_pos hlen, hfdate]
        dsimp only
        have hsv : save_detailed_content env
            (get_content_file_path env st.fs k fdate).1
            (get_content_file_path env st.fs k fdate).2 c =
            ((get_content_file_path env st.fs k fdate).1, false) := by
          unfold save_detailed_content
          have h1 : ¬ ((c.length == 0) = true) := by
            simp at hlen ⊢
            omega
          rw [if_neg h1]
          dsimp only
          rw [hwf]
          simp
        rw [hsv]
        dsimp only
        left
        exact ⟨_, rfl, rfl⟩
      · rw [if_neg hlen]
        left
        exact ⟨_, rfl, rfl⟩
  · split
    · rename_i hsome
      right
      cases hex : dbLookup st.db k with
      | none => rw [hex] at hsome; simp at hsome
      | some r => exact ⟨r, rfl, rfl⟩
    · left
      exact ⟨st, rfl, rfl⟩

/-- C3: when the detail fetch returns absent (or empty text) or the
content-file write fails, no content_file_path reaches the store for that
identity: a fresh item is still inserted with a null path, and an existing
row leaves the whole table unchanged (an unmutated duplicate). -/
theorem failed_detail_leaves_no_path (env : Env) (st : PState) (nc dc : Nat)
    (item : NewsItem) (fd : Bool) (t b u fdate : String)
    (ht : item.title = some t) (hb : item.brief = some b)
    (hu : item.url = some u) (hfdate : item.focus_date = some fdate)
    (hdb : env.dbRaises (contentHash t b) = false)
    (hfail : match env.fetch_detailed_content u with
      | none => True
      | some c => c.length = 0 ∨
          env.writeFails (env.content_base_dir ::
            splitPath (get_content_file_path env st.fs (contentHash t b)
              fdate).2) = true) :
    ∃ st2 nc2 dc2,
      processItem env fd (st, nc, dc) item = .ok (st2, nc2, dc2) ∧
      (∀ r, dbLookup st.db (contentHash t b) = some r → st2.db = st.db) ∧
      (dbLookup st.db (contentHash t b) = none →
        st2.db = st.db ++ [(contentHash t b,
          { title := t, summary := b, publish_time := fdate,
            keywords := item.keywords.getD "", crawl_time := env.nowTick,
            content_file_path := none })]) := by
  rcases preStep_fail env fd st item (contentHash t b) u fdate hu hfdate hfail
    with ⟨st1, hps, hdb1⟩ | ⟨r, hex, hps⟩
  · have hpi : processItem env fd (st, nc, dc) item =
        .ok (tryPersist env st1 t b item (contentHash t b) none
          (dbLookup st.db (contentHash t b)) nc dc) := by
      unfold processItem
      rw [ht, hb]
      dsimp only
      rw [hps]
    cases hex : dbLookup st.db (contentHash t b) with
    | some r =>
      rw [hex] at hpi
      have htp : tryPersist env st1 t b item (contentHash t b) none
          (some r) nc dc = (st1, nc, dc + 1) := by
        unfold tryPersist
        dsimp only
        rw [if_neg (by simp [truthy])]
      rw [htp] at hpi
      exact ⟨st1, nc, dc + 1, hpi, fun _ _ => hdb1,
        fun hn => Option.noConfusion hn⟩
    | none =>
      rw [hex] at hpi
      have htp : tryPersist env st1 t b item (contentHash t b) none
          none nc dc =
          ({ st1 with db := st1.db ++ [(contentHash t b,
            { title := t, summary := b, publish_time := fdate,
              keywords := item.keywords.getD "", crawl_time := env.nowTick,
              content_file_path := none })] }, nc + 1, dc) := by
        unfold tryPersist
        dsimp only
        rw [hfdate]
        dsimp only
        rw [if_neg (by rw [hdb]; simp)]
      rw [htp] at hpi
      exact ⟨_, nc + 1, dc, hpi, fun r hr => Option.noConfusion hr,
        fun _ => by rw [hdb1]⟩
  · have hpi : processItem env fd (st, nc, dc) item =
        .ok (tryPersist env st t b item (contentHash t b)
          r.content_file_path (some r) nc dc) := by
      unfold processItem
      rw [ht, hb]
      dsimp only
      rw [hps]
    have htp : tryPersist env st t b item (contentHash t b)
        r.content_file_path (some r) nc dc = (st, nc, dc + 1) := by
      unfold tryPersist
      dsimp only
      rw [if_neg (by rw [Bool.and_not_self]; simp)]
    rw [htp] at hpi
    refine ⟨st, nc, dc + 1, hpi, fun _ _ => rfl, fun hn => ?_⟩
    rw [hex] at hn
    cases hn

/-- Witness for C3: a failing fetch over the empty store still inserts the
row, with a null path. -/
theorem failed_detail_leaves_no_path_witness :
    ∃ st2 nc2 dc2,
      processItem envStub true (st0, 0, 0) itemA = .ok (st2, nc2, dc2) ∧
      (∀ r, dbLookup st0.db (contentHash "A" "B") = some r →
        st2.db = st0.db) ∧
      (dbLookup st0.db (contentHash "A" "B") = none →
        st2.db = st0.db ++ [(contentHash "A" "B",
          { title := "A", summary := "B",
            publish_time := "2024-01-01 10:00:00",
            keywords := itemA.keywords.getD "",
            crawl_time := envStub.nowTick,
            content_file_path := none })]) :=
  failed_detail_leaves_no_path envStub st0 0 0 itemA true "A" "B"
    "http://x/1" "2024-01-01 10:00:00" rfl rfl rfl rfl rfl (by trivial)

/-- C4: a stored non-null content_file_path is never cleared or changed by
any pipeline run — the whole row is left untouched, so the path is set at
most once per identity. -/
theorem content_file_path_immutable (env : Env) (st : PState)
    (batch : List NewsItem) (fd : Bool) (k : String) (r : NewsRecord)
    (p : String) (st2 : PState) (n d : Nat)
    (hg : goodDB st.db = true)
    (hk : dbLookup st.db k = some r)
    (hp : r.content_file_path = some p)
    (hrun : save_news_to_db env st batch fd = .ok (st2, n, d)) :
    dbLookup st2.db k = some r := by
  have htr := goodDB_lookup_truthy st.db k r p hg hk hp
  exact (saveLoop_preserves env fd batch st 0 0 st2 n d k r hg hk htr
    hrun).2

/-- Witness for C4 at a concrete run over a pathed row. -/
theorem content_file_path_immutable_witness :
    dbLookup stC4.db (contentHash "A" "B") = some recABPathed :=
  content_file_path_immutable envStub stABPathed [itemA, itemC] true
    (contentHash "A" "B") recABPathed
    "2024/01/01/b86fc6b051f63d73de262d4c34e3a0a9.txt" stC4 1 1
    (by decide) (by decide) rfl (by rfl)

/-- C5: the spec scenario — processing the single item A/B with fetchDetail
false against the empty store gives (new=1, dup=0) and a row with a null
content_file_path; processing it again gives (new=0, dup=1) with the store
unchanged. -/
theorem scenario_item_twice :
    save_news_to_db envStub st0 [itemA] false = .ok (stAB, 1, 0) ∧
    recAB.content_file_path = none ∧
    save_news_to_db envStub stAB [itemA] false = .ok (stAB, 0, 1) :=
  ⟨by rfl, rfl, by rfl⟩

/-- C6: the identity hash is MD5 — a 128-bit digest rendered as 32 hex
characters — of the UTF-8 bytes of title concatenated with brief, no
separator; any two items with equal concatenations get the same
identity. -/
theorem identity_hash_spec (item : NewsItem) (t b : String)
    (ht : item.title = some t) (hb : item.brief = some b) :
    get_content_hash item = .ok (md5hex (utf8Bytes (t ++ b))) ∧
    (md5hex (utf8Bytes (t ++ b))).length = 32 ∧
    (∀ (item2 : NewsItem) (t2 b2 : String), item2.title = some t2 →
      item2.brief = some b2 → t2 ++ b2 = t ++ b →
      get_content_hash item2 = get_content_hash item) := by
  refine ⟨?_, md5hex_length _, ?_⟩
  · unfold get_content_hash
    rw [ht, hb]
    rfl
  · intro item2 t2 b2 ht2 hb2 hcat
    unfold get_content_hash
    rw [ht, hb, ht2, hb2]
    dsimp only
    unfold contentHash
    rw [hcat]

/-- Witness for C6 at the scenario item. -/
theorem identity_hash_spec_witness :
    get_content_hash itemA = .ok (md5hex (utf8Bytes ("A" ++ "B"))) ∧
    (md5hex (utf8Bytes ("A" ++ "B"))).length = 32 :=
  ⟨(identity_hash_spec itemA "A" "B" rfl rfl).1,
    (identity_hash_spec itemA "A" "B" rfl rfl).2.1⟩

/-- C7: get_content_file_path returns year/month/day/identity.txt derived
from publish_time when it parses against %Y-%m-%d %H:%M:%S, and the
current date partition with the same leaf otherwise; being a total
function it returns without raising in both cases. -/
theorem pathFor_spec (env : Env) (fs : FS) (h pt : String) :
    (∀ dt, parseDateTime pt = some dt →
      (get_content_file_path env fs h pt).2 =
        fmtYear dt.year ++ "/" ++ pad2 dt.month ++ "/" ++ pad2 dt.day ++
          "/" ++ h ++ ".txt") ∧
    (parseDateTime pt = none →
      (get_content_file_path env fs h pt).2 =
        fmtYear env.now.year ++ "/" ++ pad2 env.now.month ++ "/" ++
          pad2 env.now.day ++ "/" ++ h ++ ".txt") := by
  constructor
  · intro dt hdt
    unfold get_content_file_path
    rw [hdt]
  · intro hn
    unfold get_content_file_path
    rw [hn]

/-- Witness for C7: a well-formed and a malformed publish time. -/
theorem pathFor_spec_witness :
    (get_content_file_path envStub fs0 "h" "2024-01-01 10:00:00").2 =
      "2024/01/01/h.txt" ∧
    (get_content_file_path envStub fs0 "h" "not-a-date").2 =
      "2025/06/15/h.txt" := by
  constructor
  · rw [(pathFor_spec envStub fs0 "h" "2024-01-01 10:00:00").1
      ⟨2024, 1, 1, 10, 0, 0⟩ (by decide)]
    rfl
  · rw [(pathFor_spec envStub fs0 "h" "not-a-date").2 (by decide)]
    rfl

/-- C8 counterexample: save_detailed_content, called with non-empty text,
no injected I/O error and no directories present, reports failure and
creates no directory level — contradicting the claim that it creates any
missing directory levels of the path before writing. -/
theorem save_dirs_counterexample :
    save_detailed_content envStub fs0 "2024/01/01/h.txt" "x" =
      (fs0, false) ∧ fs0.dirs = [] :=
  ⟨by decide, rfl⟩

/-- C8 amended: save_detailed_content never creates directories; it
succeeds exactly when the text is non-empty, the parent directory already
exists and no I/O error occurs, writing the file then, and otherwise fails
leaving the filesystem unchanged. The directory levels are created
beforehand by get_content_file_path, which returns its path with every
level of the date partition present. -/
theorem save_detailed_content_amended (env : Env) (fs : FS)
    (path text h pt : String) :
    ((save_detailed_content env fs path text).1.dirs = fs.dirs) ∧
    ((save_detailed_content env fs path text).2 =
      (text.length != 0 &&
        (fs.dirs.contains (env.content_base_dir :: splitPath path).dropLast
          && !env.writeFails (env.content_base_dir :: splitPath path)))) ∧
    ((save_detailed_content env fs path text).1 =
      if (save_detailed_content env fs path text).2 = true then
        writeFile fs (env.content_base_dir :: splitPath path) text
      else fs) ∧
    (∃ y m d, (get_content_file_path env fs h pt).2 =
        y ++ "/" ++ m ++ "/" ++ d ++ "/" ++ h ++ ".txt" ∧
      ((get_content_file_path env fs h pt).1.dirs.contains
        [env.content_base_dir, y, m, d]) = true ∧
      ((get_content_file_path env fs h pt).1.dirs.contains
        [env.content_base_dir, y, m]) = true ∧
      ((get_content_file_path env fs h pt).1.dirs.contains
        [env.content_base_dir, y]) = true ∧
      ((get_content_file_path env fs h pt).1.dirs.contains
        [env.content_base_dir]) = true) := by
  have hsplit : ∀ (r : FS × Bool), r = save_detailed_content env fs path text
      → r.1.dirs = fs.dirs ∧
        r.2 = (text.length != 0 &&
          (fs.dirs.contains (env.content_base_dir :: splitPath path).dropLast
            && !env.writeFails (env.content_base_dir :: splitPath path))) ∧
        r.1 = if r.2 = true then
          writeFile fs (env.content_base_dir :: splitPath path) text
        else fs := by
    intro r hr
    unfold save_detailed_content at hr
    by_cases h0 : (text.length == 0) = true
    · rw [if_pos h0] at hr
      subst hr
      have hF : (text.length != 0) = false := by
        simp only [bne, h0, Bool.not_true]
      rw [hF, Bool.false_and]
      exact ⟨rfl, rfl, rfl⟩
    · rw [if_neg h0] at hr
      have hT : (text.length != 0) = true := by
        simp only [bne]
        cases hx : (text.length == 0) with
        | true => exact absurd hx h0
        | false => rfl
      rw [hT, Bool.true_and]
      by_cases h1 : (fs.dirs.contains
          (env.content_base_dir :: splitPath path).dropLast
            && !env.writeFails (env.content_base_dir :: splitPath path)) = true
      · rw [if_pos h1] at hr
        subst hr
        rw [h1]
        exact ⟨rfl, rfl, rfl⟩
      · rw [if_neg h1] at hr
        subst hr
        have h1f : (fs.dirs.contains
            (env.content_base_dir :: splitPath path).dropLast
              && !env.writeFails (env.content_base_dir :: splitPath path)) =
            false := by
          cases hx : (fs.dirs.contains
              (env.content_base_dir :: splitPath path).dropLast
                && !env.writeFails (env.content_base_dir :: splitPath path))
          · rfl
          · exact absurd hx h1
        rw [h1f]
        exact ⟨rfl, rfl, rfl⟩
  obtain ⟨ha, hb2, hc⟩ := hsplit _ rfl
  refine ⟨ha, hb2, hc, ?_⟩
  unfold get_content_file_path
  cases hp2 : parseDateTime pt with
  | some dt =>
    dsimp only
    obtain ⟨h1, h2, h3, h4⟩ := makedirs4_contains fs env.content_base_dir
      (fmtYear dt.year) (pad2 dt.month) (pad2 dt.day)
    exact ⟨fmtYear dt.year, pad2 dt.month, pad2 dt.day, rfl, h1, h2, h3, h4⟩
  | none =>
    dsimp only
    obtain ⟨h1, h2, h3, h4⟩ := makedirs4_contains fs env.content_base_dir
      (fmtYear env.now.year) (pad2 env.now.month) (pad2 env.now.day)
    exact ⟨fmtYear env.now.year, pad2 env.now.month, pad2 env.now.day, rfl,
      h1, h2, h3, h4⟩

/-- C9: when persisting one item raises (the SQL statement fails while the
try block reaches it), the exception is caught and logged with the item
title, state and counters are otherwise unchanged, the loop continues with
the remaining items exactly from that state, and a batch of otherwise
well-formed items still returns its (new_count, duplicate_count) result. -/
theorem persist_failure_isolated (env : Env) (fd : Bool) (st : PState)
    (nc dc : Nat) (item : NewsItem) (t b : String) (st1 : PState)
    (cfp : Option String) (ex : Option NewsRecord)
    (ht : item.title = some t) (hb : item.brief = some b)
    (hraise : env.dbRaises (contentHash t b) = true)
    (hpre : preStep env fd st item (contentHash t b) = .ok (st1, cfp, ex))
    (hexec : reachesExecute ex cfp = true) :
    processItem env fd (st, nc, dc) item =
      .ok ({ st1 with errlogs := st1.errlogs ++ [saveFailLog t] }, nc, dc) ∧
    (∀ rest, saveLoop env fd (item :: rest) (st, nc, dc) =
      saveLoop env fd rest
        ({ st1 with errlogs := st1.errlogs ++ [saveFailLog t] }, nc, dc)) ∧
    (∀ rest, (∀ it ∈ rest, itemOk env fd it = true) →
      ∃ out, saveLoop env fd (item :: rest) (st, nc, dc) = .ok out) := by
  have h1 : processItem env fd (st, nc, dc) item =
      .ok ({ st1 with errlogs := st1.errlogs ++ [saveFailLog t] },
        nc, dc) := by
    unfold processItem
    rw [ht, hb]
    dsimp only
    rw [hpre]
    dsimp only
    unfold tryPersist
    cases ex with
    | some exr =>
      unfold reachesExecute at hexec
      dsimp only at hexec
      dsimp only
      rw [if_pos hexec, if_pos hraise]
    | none =>
      dsimp only
      cases hfo : item.focus_date with
      | some fdate =>
        dsimp only
        rw [if_pos hraise]
      | none => rfl
  refine ⟨h1, ?_, ?_⟩
  · intro rest
    conv_lhs => rw [saveLoop]
    rw [h1]
  · intro rest hall
    obtain ⟨out, hout⟩ := saveLoop_total env fd rest
      ({ st1 with errlogs := st1.errlogs ++ [saveFailLog t] }, nc, dc) hall
    refine ⟨out, ?_⟩
    conv_lhs => rw [saveLoop]
    rw [h1]
    exact hout

/-- Witness for C9: a two-item batch whose first item fails to persist
still processes the second and returns its counters. -/
theorem persist_failure_isolated_witness :
    processItem env9 false (st0, 0, 0) itemA = .ok (stLogA, 0, 0) ∧
    saveLoop env9 false [itemA, itemC] (st0, 0, 0) =
      saveLoop env9 false [itemC] (stLogA, 0, 0) ∧
    (∃ out, saveLoop env9 false [itemA, itemC] (st0, 0, 0) = .ok out) := by
  have h := persist_failure_isolated env9 false st0 0 0 itemA "A" "B" st0
    none none rfl rfl (by decide) rfl rfl
  exact ⟨h.1, h.2.1 [itemC], h.2.2 [itemC] (by decide)⟩

/-- C10: an item lacking only the optional keywords key is still inserted,
with the empty string stored in the keywords column, while a missing title
or brief key raises before the per-item try/except (so the error is not
caught by it). -/
theorem missing_keys_behavior (env : Env) (fd : Bool) (st : PState)
    (nc dc : Nat) (item : NewsItem) (t b fdate : String) (st1 : PState)
    (cfp : Option String)
    (ht : item.title = some t) (hb : item.brief = some b)
    (hkw : item.keywords = none) (hfdate : item.focus_date = some fdate)
    (hpre : preStep env fd st item (contentHash t b) = .ok (st1, cfp, none))
    (hdb : env.dbRaises (contentHash t b) = false) :
    processItem env fd (st, nc, dc) item =
      .ok ({ st1 with db := st1.db ++ [(contentHash t b,
        { title := t, summary := b, publish_time := fdate, keywords := "",
          crawl_time := env.nowTick, content_file_path := cfp })] },
        nc + 1, dc) ∧
    (∀ item2 : NewsItem, item2.title = none ∨ item2.brief = none →
      ∃ e, processItem env fd (st, nc, dc) item2 = .error e) := by
  constructor
  · unfold processItem
    rw [ht, hb]
    dsimp only
    rw [hpre]
    dsimp only
    unfold tryPersist
    dsimp only
    rw [hfdate]
    dsimp only
    rw [if_neg (by rw [hdb]; simp), hkw]
    rfl
  · intro item2 h2
    refine ⟨"KeyError: title or brief", ?_⟩
    unfold processItem
    rcases h2 with h2 | h2
    · rw [h2]
    · rw [h2]
      cases item2.title <;> rfl

/-- Witness for C10: itemA has no keywords key and is stored with empty
keywords, while the item lacking a title raises. -/
theorem missing_keys_behavior_witness :
    processItem envStub false (st0, 0, 0) itemA = .ok (stAB, 1, 0) ∧
    (∃ e, processItem envStub false (st0, 0, 0) itemNoTitle = .error e) := by
  have h := missing_keys_behavior envStub false st0 0 0 itemA "A" "B"
    "2024-01-01 10:00:00" st0 none rfl rfl rfl rfl rfl rfl
  exact ⟨h.1.trans (by rfl), h.2 itemNoTitle (Or.inl rfl)⟩

end Crawler
